import Mathlib

/-!
A shallow embedding of the tzfile-reader TZif decoder (src/entities.rs)
and its timezone aggregation pass (src/main.rs).

Modelling conventions:
* bytes are natural numbers (a buffer is a `List Nat`; the u8 domain is
  imposed with explicit reduction modulo 256 where byte arithmetic needs it);
* machine integers are `Nat` / `Int` with explicit reduction modulo powers
  of two (`usize` arithmetic wraps modulo 2^64, release-mode semantics);
* Rust panics (out-of-range slice indexing, unwrap of `None`, arithmetic
  underflow) abort the computation without returning a value; they are
  modelled as distinguished failure outcomes (`Option.none`, or an explicit
  panic-kind value), kept separate from errors the code returns as values.
-/

/-- The usize modulus, 2 to the power 64. -/
def U64 : Nat := 18446744073709551616

/-- Wrapping usize arithmetic (release-mode overflow semantics). -/
def wrap64 (n : Nat) : Nat := n % U64

/-- Rust `i as usize` on a signed value: reduction modulo 2^64. -/
def asUsize (i : Int) : Nat := (i % (U64 : Int)).toNat

/-- Reinterpret an unsigned 32-bit value as the signed i32 it encodes. -/
def toSigned32 (u : Nat) : Int :=
  if u < 2147483648 then (u : Int) else (u : Int) - 4294967296

/-- Rust `i32::from_be_bytes([b0, b1, b2, b3])`: big-endian signed decode. -/
def be32 (b0 b1 b2 b3 : Nat) : Int :=
  toSigned32 ((b0 % 256) * 16777216 + (b1 % 256) * 65536 + (b2 % 256) * 256 + b3 % 256)

/-- Rust slice indexing `bytes[s..e]`: defined when `s ≤ e ∧ e ≤ len`
(anything else panics, modelled by `none`). -/
def sliceRange (bytes : List Nat) (s e : Nat) : Option (List Nat) :=
  if s ≤ e ∧ e ≤ bytes.length then some ((bytes.drop s).take (e - s)) else none

/-- Decidable equality for `Except`, used to evaluate decode outcomes on
concrete inputs. -/
instance {ε α : Type} [DecidableEq ε] [DecidableEq α] : DecidableEq (Except ε α) := fun x y =>
  match x, y with
  | .ok a, .ok b =>
    if h : a = b then isTrue (by rw [h]) else isFalse (by intro hc; cases hc; exact h rfl)
  | .error a, .error b =>
    if h : a = b then isTrue (by rw [h]) else isFalse (by intro hc; cases hc; exact h rfl)
  | .ok _, .error _ => isFalse (by intro hc; cases hc)
  | .error _, .ok _ => isFalse (by intro hc; cases hc)

/-- The UTF-8 encoding of the replacement character U+FFFD. -/
def repl : List Nat := [239, 191, 189]

/-- Is the byte a UTF-8 continuation byte (0x80 ..= 0xBF)? -/
def isCont (b : Nat) : Bool := 128 ≤ b && b < 192

/-- Valid second byte of a three-byte sequence led by `b0`
(0xE0 restricts to 0xA0..=0xBF, 0xED restricts to 0x80..=0x9F). -/
def cont3ok (b0 b1 : Nat) : Bool :=
  if b0 = 224 then 160 ≤ b1 && b1 < 192
  else if b0 = 237 then 128 ≤ b1 && b1 < 160
  else isCont b1

/-- Valid second byte of a four-byte sequence led by `b0`
(0xF0 restricts to 0x90..=0xBF, 0xF4 restricts to 0x80..=0x8F). -/
def cont4ok (b0 b1 : Nat) : Bool :=
  if b0 = 240 then 144 ≤ b1 && b1 < 192
  else if b0 = 244 then 128 ≤ b1 && b1 < 144
  else isCont b1

/-- One step of lossy UTF-8 decoding: given the lead byte `b0` and the
bytes after it, return the emitted output bytes (the valid sequence, or
one U+FFFD for a maximal invalid subpart) and how many input bytes beyond
`b0` the step consumed. -/
def utf8Step (b0 : Nat) (rest : List Nat) : List Nat × Nat :=
  if b0 < 128 then ([b0], 0)
  else if b0 < 194 then
    -- 0x80 ..= 0xC1: continuation or overlong lead, invalid as a lead byte
    (repl, 0)
  else if b0 < 224 then
    -- two-byte lead 0xC2 ..= 0xDF
    match rest with
    | b1 :: _ => if isCont b1 then ([b0, b1], 1) else (repl, 0)
    | [] => (repl, 0)
  else if b0 < 240 then
    -- three-byte lead 0xE0 ..= 0xEF
    match rest with
    | b1 :: rest2 =>
      if cont3ok b0 b1 then
        match rest2 with
        | b2 :: _ => if isCont b2 then ([b0, b1, b2], 2) else (repl, 1)
        | [] => (repl, 1)
      else (repl, 0)
    | [] => (repl, 0)
  else if b0 < 245 then
    -- four-byte lead 0xF0 ..= 0xF4
    match rest with
    | b1 :: rest2 =>
      if cont4ok b0 b1 then
        match rest2 with
        | b2 :: rest3 =>
          if isCont b2 then
            match rest3 with
            | b3 :: _ => if isCont b3 then ([b0, b1, b2, b3], 3) else (repl, 2)
            | [] => (repl, 2)
          else (repl, 1)
        | [] => (repl, 1)
      else (repl, 0)
    | [] => (repl, 0)
  else
    -- 0xF5 ..= : invalid lead byte
    (repl, 0)

/-- Fuel-indexed driver for lossy UTF-8 decoding; any fuel at least the
length of the byte list yields the decoding (each step consumes at least
one byte). -/
def lossyGo : Nat → List Nat → List Nat
  | _, [] => []
  | 0, _ :: _ => []
  | fuel + 1, b0 :: rest =>
    (utf8Step b0 rest).1 ++ lossyGo fuel (rest.drop (utf8Step b0 rest).2)

/-- Rust `String::from_utf8_lossy`, at the level of the UTF-8 bytes of the
resulting string: valid sequences are copied verbatim, each maximal invalid
subpart (including a truncated trailing sequence) becomes one U+FFFD. -/
def lossyUtf8 (bs : List Nat) : List Nat := lossyGo bs.length bs

/-- The UTF-8 bytes of the magic tag string, the ASCII letters T, Z, i, f. -/
def tzifMagic : List Nat := [84, 90, 105, 102]

/-- The only error `TzFileHeader::try_from` returns: the magic mismatch,
carrying the lossily decoded magic string. -/
inductive HeaderError
  | magicMismatch (magic : List Nat)
  deriving DecidableEq, Repr

/-- The decoded 44-byte TZif header (struct `TzFileHeader`).  The `version`
char is the byte at offset 4 (a `u8 as char` keeps the numeric value); the
six counts are big-endian signed 32-bit integers. -/
structure TzFileHeader where
  magic : List Nat
  version : Nat
  _reserved : List Nat
  tzh_ttisutcnt : Int
  tzh_ttisstdcnt : Int
  tzh_leapcnt : Int
  tzh_timecnt : Int
  tzh_typecnt : Int
  tzh_charcnt : Int
  deriving DecidableEq, Repr

/-- `TzFileHeader::try_from(value: [u8; 44])`: compare the lossily decoded
first four bytes against the magic, then decode the version byte and the
six big-endian counts at fixed offsets (no further validation). -/
def TzFileHeader.try_from (value : List Nat) : Except HeaderError TzFileHeader :=
  let magic := lossyUtf8 (value.take 4)
  if magic ≠ tzifMagic then .error (.magicMismatch magic)
  else .ok {
    magic := magic
    version := value.getD 4 0
    _reserved := [value.getD 5 0, value.getD 6 0, value.getD 7 0, value.getD 8 0,
      value.getD 9 0, value.getD 10 0, value.getD 11 0, value.getD 12 0,
      value.getD 13 0, value.getD 14 0, value.getD 15 0, value.getD 16 0,
      value.getD 17 0, value.getD 18 0, value.getD 19 0]
    tzh_ttisutcnt := be32 (value.getD 20 0) (value.getD 21 0) (value.getD 22 0) (value.getD 23 0)
    tzh_ttisstdcnt := be32 (value.getD 24 0) (value.getD 25 0) (value.getD 26 0) (value.getD 27 0)
    tzh_leapcnt := be32 (value.getD 28 0) (value.getD 29 0) (value.getD 30 0) (value.getD 31 0)
    tzh_timecnt := be32 (value.getD 32 0) (value.getD 33 0) (value.getD 34 0) (value.getD 35 0)
    tzh_typecnt := be32 (value.getD 36 0) (value.getD 37 0) (value.getD 38 0) (value.getD 39 0)
    tzh_charcnt := be32 (value.getD 40 0) (value.getD 41 0) (value.getD 42 0) (value.getD 43 0) }

/-- A decoded local-time-type record (struct `TTInfo`). -/
structure TTInfo where
  tt_utoff : Int
  tt_isdst : Bool
  tt_desigidx : Nat
  deriving DecidableEq, Repr

/-- Rust `size_of::<TTInfo>()`: under `repr(C)` the struct {i32, bool, u8}
has alignment 4 and size 8 (two trailing padding bytes) on every supported
platform. -/
def sizeOfTTInfo : Nat := 8

/-- The source's `ttinfo_size_unpadded`: `size_of::<TTInfo>() - 2`. -/
def ttinfo_size_unpadded : Nat := sizeOfTTInfo - 2

/-- `TTInfo::from_bytes`: fails unless given exactly 6 bytes, then decodes
a big-endian signed offset, the DST flag (byte value 1 is true), and the
designation index byte. -/
def TTInfo.from_bytes (bytes : List Nat) : Option TTInfo :=
  if bytes.length ≠ 6 then none
  else some {
    tt_utoff := be32 (bytes.getD 0 0) (bytes.getD 1 0) (bytes.getD 2 0) (bytes.getD 3 0)
    tt_isdst := bytes.getD 4 0 == 1
    tt_desigidx := bytes.getD 5 0 }

/-- `chunks(4).map(i32::from_be_bytes)` over a byte slice: a final chunk
shorter than 4 bytes makes the map body index out of bounds, a panic. -/
def decodeBe32List : List Nat → Option (List Int)
  | [] => some []
  | b0 :: b1 :: b2 :: b3 :: rest =>
    (decodeBe32List rest).map (fun tl => be32 b0 b1 b2 b3 :: tl)
  | _ => none

/-- `chunks(6).flat_map(TTInfo::from_bytes)`: each full 6-byte chunk decodes
to a record; a short final chunk yields `Err`, which `flat_map` drops. -/
def decodeTTInfos : List Nat → List TTInfo
  | b0 :: b1 :: b2 :: b3 :: b4 :: b5 :: rest =>
    { tt_utoff := be32 b0 b1 b2 b3, tt_isdst := b4 == 1, tt_desigidx := b5 }
      :: decodeTTInfos rest
  | _ => []

/-- `chunks(8)` with two big-endian i32 reads per chunk: a final chunk
shorter than 8 bytes makes the map body index out of bounds, a panic. -/
def decodeLeapPairs : List Nat → Option (List (Int × Int))
  | [] => some []
  | b0 :: b1 :: b2 :: b3 :: b4 :: b5 :: b6 :: b7 :: rest =>
    (decodeLeapPairs rest).map (fun tl => (be32 b0 b1 b2 b3, be32 b4 b5 b6 b7) :: tl)
  | _ => none

/-- Cursor after the transition-time section: `timecnt * size_of::<i32>()`
in wrapping usize arithmetic. -/
def transEnd (h : TzFileHeader) : Nat :=
  wrap64 (0 + wrap64 (asUsize h.tzh_timecnt * 4))

/-- Cursor after the transition-type-index section: `timecnt` more bytes. -/
def idxEnd (h : TzFileHeader) : Nat :=
  wrap64 (transEnd h + asUsize h.tzh_timecnt)

/-- Cursor after the local-time-type section:
`typecnt * ttinfo_size_unpadded` more bytes. -/
def ttinfoEnd (h : TzFileHeader) : Nat :=
  wrap64 (idxEnd h + wrap64 (asUsize h.tzh_typecnt * ttinfo_size_unpadded))

/-- Cursor after the designation blob: `charcnt` more bytes. -/
def desigEnd (h : TzFileHeader) : Nat :=
  wrap64 (ttinfoEnd h + asUsize h.tzh_charcnt)

/-- Cursor after the leap-second section:
`leapcnt * size_of::<(i32, i32)>()` more bytes. -/
def leapEnd (h : TzFileHeader) : Nat :=
  wrap64 (desigEnd h + wrap64 (asUsize h.tzh_leapcnt * 8))

/-- Cursor after the standard/wall-indicator section: `isstdcnt` bytes. -/
def stdEnd (h : TzFileHeader) : Nat :=
  wrap64 (leapEnd h + asUsize h.tzh_ttisstdcnt)

/-- Cursor after the UT/local-indicator section: `isutcnt` bytes. -/
def utEnd (h : TzFileHeader) : Nat :=
  wrap64 (stdEnd h + asUsize h.tzh_ttisutcnt)

/-- The decoded TZif body (struct `TzFileBody`).  The designation string is
stored as the UTF-8 bytes of the lossily decoded blob. -/
structure TzFileBody where
  tt_trans : List Int
  ttinfo_indices : List Nat
  ttinfo_entries : List TTInfo
  tz_designations : List Nat
  leap_pairs : List (Int × Int)
  std_indicators : List Bool
  ut_indicators : List Bool
  deriving DecidableEq, Repr

/-- `TzFileBody::from_bytes_and_header`: slice seven sections off the
buffer at cursor positions computed from the header counts, decoding each.
The Rust function never returns `Err`; its only failure mode is a panic
from an out-of-range slice (or a short chunk), modelled as `none`. -/
def TzFileBody.from_bytes_and_header (bytes : List Nat) (header : TzFileHeader) :
    Option TzFileBody := do
  let transBytes ← sliceRange bytes 0 (transEnd header)
  let tt_trans ← decodeBe32List transBytes
  let ttinfo_indices ← sliceRange bytes (transEnd header) (idxEnd header)
  let ttinfoBytes ← sliceRange bytes (idxEnd header) (ttinfoEnd header)
  let ttinfo_entries := decodeTTInfos ttinfoBytes
  let desigBytes ← sliceRange bytes (ttinfoEnd header) (desigEnd header)
  let tz_designations := lossyUtf8 desigBytes
  let leapBytes ← sliceRange bytes (desigEnd header) (leapEnd header)
  let leap_pairs ← decodeLeapPairs leapBytes
  let stdBytes ← sliceRange bytes (leapEnd header) (stdEnd header)
  let utBytes ← sliceRange bytes (stdEnd header) (utEnd header)
  some {
    tt_trans := tt_trans
    ttinfo_indices := ttinfo_indices
    ttinfo_entries := ttinfo_entries
    tz_designations := tz_designations
    leap_pairs := leap_pairs
    std_indicators := stdBytes.map (fun b => b == 1)
    ut_indicators := utBytes.map (fun b => b == 1) }

/-- The decoded file (struct `TzFile`). -/
structure TzFile where
  header : TzFileHeader
  body : TzFileBody
  deriving DecidableEq, Repr

/-- The failure outcomes of `TzFile::from_bytes`: the too-short error
return, the wrapped header error return, or a panic escaping from the body
decoder (which itself never returns `Err`). -/
inductive TzFailure
  | formatError (size : Nat)
  | headerInvalid (e : HeaderError)
  | bodyPanic
  deriving DecidableEq, Repr

/-- `TzFile::from_bytes`: reject buffers shorter than 44 bytes, decode the
first 44 bytes as the header, then decode the rest as the body. -/
def TzFile.from_bytes (bytes : List Nat) : Except TzFailure TzFile :=
  if bytes.length < 44 then .error (.formatError bytes.length)
  else
    match TzFileHeader.try_from (bytes.take 44) with
    | .error e => .error (.headerInvalid e)
    | .ok header =>
      match TzFileBody.from_bytes_and_header (bytes.drop 44) header with
      | none => .error .bodyPanic
      | some body => .ok { header := header, body := body }

/-- The panic sites of the aggregation loop in `main`.  The loop runs inside
`main` and returns nothing; each of these aborts the process.  None of them
is an error value returned to a caller. -/
inductive PanicKind
  | emptyIndices
  | transIndex
  | ttinfoIndex
  | desigGet
  | splitNone
  deriving DecidableEq, Repr

/-- An aggregated timezone record (struct `Timezone` in main.rs); the name
is kept as UTF-8 bytes. -/
structure Timezone where
  name : List Nat
  ut_offset : Int
  is_daylight_savings : Bool
  transitions : List Int
  deriving DecidableEq, Repr

/-- Rust `str::is_char_boundary(i)` on the UTF-8 bytes of a string:
index 0 always, the end of the string, or a byte that is not a
continuation byte (below 0x80 or at least 0xC0). -/
def isCharBoundary (s : List Nat) (i : Nat) : Bool :=
  if i = 0 then true
  else
    match s.get? i with
    | none => i == s.length
    | some b => decide (b < 128) || decide (192 ≤ b)

/-- Rust `str::get(i..)`: the suffix from byte index `i`, provided `i` is
within bounds and on a char boundary. -/
def strGetFrom (s : List Nat) (i : Nat) : Option (List Nat) :=
  if i ≤ s.length ∧ isCharBoundary s i then some (s.drop i) else none

/-- Rust `str::split_once(NUL)` projected on the first component: the
prefix before the first NUL byte, or `None` when the string has none. -/
def splitOnceNul (s : List Nat) : Option (List Nat) :=
  if s.contains 0 then some (s.takeWhile (fun b => b != 0)) else none

/-- The per-position designation lookup of the aggregation loop: index the
local-time-type table with `t`, then resolve the NUL-terminated name at
the designation index.  Each `match` arm that the Rust code reaches via a
panicking `[]`-index or `.unwrap()` yields the corresponding panic kind. -/
def resolveName (body : TzFileBody) (t : Nat) : Except PanicKind (Int × Bool × List Nat) :=
  match body.ttinfo_entries.get? t with
  | none => .error .ttinfoIndex
  | some info =>
    match strGetFrom body.tz_designations info.tt_desigidx with
    | none => .error .desigGet
    | some suffix =>
      match splitOnceNul suffix with
      | none => .error .splitNone
      | some name => .ok (info.tt_utoff, info.tt_isdst, name)

/-- Lookup in the name-to-record table (`HashMap` modelled as an
association list). -/
def tableGet (table : List (List Nat × Timezone)) (k : List Nat) : Option Timezone :=
  (table.find? (fun e => e.1 == k)).map (fun e => e.2)

/-- `table.get_mut(&name)` followed by `tz.transitions.push(trans)`. -/
def tablePush (table : List (List Nat × Timezone)) (k : List Nat) (trans : Int) :
    List (List Nat × Timezone) :=
  table.map (fun e =>
    if e.1 == k then (e.1, { e.2 with transitions := e.2.transitions ++ [trans] }) else e)

/-- The body of the aggregation loop of `main`, iterating the included
transition-type indices with their positions.  Note the `else` branch
inserts a record whose transition list is the literal `vec![]`. -/
def aggGo (body : TzFileBody) :
    List Nat → Nat → List (List Nat × Timezone) →
      Except PanicKind (List (List Nat × Timezone))
  | [], _, table => .ok table
  | t :: rest, idx, table =>
    match body.tt_trans.get? idx with
    | none => .error .transIndex
    | some tr =>
      match resolveName body t with
      | .error k => .error k
      | .ok (off, dst, name) =>
        match tableGet table name with
        | some _ => aggGo body rest (idx + 1) (tablePush table name tr)
        | none =>
          aggGo body rest (idx + 1)
            (table ++ [(name,
              { name := name, ut_offset := off, is_daylight_savings := dst,
                transitions := [] })])

/-- The aggregation pass of `main`: iterate
`ttinfo_indices[..len - 1]` building the name-to-record table.  With an
empty index list the bound `len() - 1` underflows and the slice panics,
modelled by the `emptyIndices` outcome. -/
def aggregate (body : TzFileBody) :
    Except PanicKind (List (List Nat × Timezone)) :=
  if body.ttinfo_indices.length = 0 then .error .emptyIndices
  else aggGo body (body.ttinfo_indices.take (body.ttinfo_indices.length - 1)) 0 []

/-- The in-bounds conditions of the seven body-section slices, in section
order: each slice `bytes[s..e]` requires `s ≤ e` and `e ≤ len` (the first
slice starts at 0, so only its upper bound is a condition). -/
def bodySectionsFit (bytes : List Nat) (h : TzFileHeader) : Prop :=
  transEnd h ≤ bytes.length ∧
  transEnd h ≤ idxEnd h ∧ idxEnd h ≤ bytes.length ∧
  idxEnd h ≤ ttinfoEnd h ∧ ttinfoEnd h ≤ bytes.length ∧
  ttinfoEnd h ≤ desigEnd h ∧ desigEnd h ≤ bytes.length ∧
  desigEnd h ≤ leapEnd h ∧ leapEnd h ≤ bytes.length ∧
  leapEnd h ≤ stdEnd h ∧ stdEnd h ≤ bytes.length ∧
  stdEnd h ≤ utEnd h ∧ utEnd h ≤ bytes.length

/-- The value range of a Rust i32. -/
def i32Range (c : Int) : Prop := -2147483648 ≤ c ∧ c < 2147483648

/-- All six header counts are in the i32 range; every header produced by
`TzFileHeader::try_from` satisfies this since its counts come from
`i32::from_be_bytes`. -/
def headerInRange (h : TzFileHeader) : Prop :=
  i32Range h.tzh_ttisutcnt ∧ i32Range h.tzh_ttisstdcnt ∧ i32Range h.tzh_leapcnt ∧
  i32Range h.tzh_timecnt ∧ i32Range h.tzh_typecnt ∧ i32Range h.tzh_charcnt

/-- The round-trip scenario input: a 44-byte header with counts
timecnt 2, typecnt 1, charcnt 4, followed by transition times 100 and 200,
type indices 0 and 0, one local-time-type record of offset 0, DST 0,
designation index 0, and the designation blob bytes of UTC then NUL. -/
def c1bytes : List Nat :=
  [84, 90, 105, 102, 0,
   0, 0, 0, 0, 0, 0, 0, 0, 0, 0, 0, 0, 0, 0, 0,
   0, 0, 0, 0, 0, 0, 0, 0, 0, 0, 0, 0, 0, 0, 0, 2, 0, 0, 0, 1, 0, 0, 0, 4,
   0, 0, 0, 100, 0, 0, 0, 200,
   0, 0,
   0, 0, 0, 0, 0, 0,
   85, 84, 67, 0]

/-- A header whose timecnt is 1 with every other count 0. -/
def c2header : TzFileHeader :=
  { magic := tzifMagic, version := 0, _reserved := List.replicate 15 0,
    tzh_ttisutcnt := 0, tzh_ttisstdcnt := 0, tzh_leapcnt := 0,
    tzh_timecnt := 1, tzh_typecnt := 0, tzh_charcnt := 0 }

/-- A 44-byte header whose timecnt field holds the big-endian bytes of -1
(four 255 bytes); all other counts are 0. -/
def c3bytes : List Nat :=
  [84, 90, 105, 102, 0,
   0, 0, 0, 0, 0, 0, 0, 0, 0, 0, 0, 0, 0, 0, 0,
   0, 0, 0, 0, 0, 0, 0, 0, 0, 0, 0, 0, 255, 255, 255, 255, 0, 0, 0, 0, 0, 0, 0, 0]

/-- The header that `TzFileHeader::try_from` produces on `c3bytes`. -/
def c3header : TzFileHeader :=
  { magic := tzifMagic, version := 0, _reserved := List.replicate 15 0,
    tzh_ttisutcnt := 0, tzh_ttisstdcnt := 0, tzh_leapcnt := 0,
    tzh_timecnt := -1, tzh_typecnt := 0, tzh_charcnt := 0 }

/-- Like `c1bytes` but the first transition-type index is 1, one past the
end of the one-record local-time-type table. -/
def c4bytes : List Nat :=
  [84, 90, 105, 102, 0,
   0, 0, 0, 0, 0, 0, 0, 0, 0, 0, 0, 0, 0, 0, 0,
   0, 0, 0, 0, 0, 0, 0, 0, 0, 0, 0, 0, 0, 0, 0, 2, 0, 0, 0, 1, 0, 0, 0, 4,
   0, 0, 0, 100, 0, 0, 0, 200,
   1, 0,
   0, 0, 0, 0, 0, 0,
   85, 84, 67, 0]

/-- Like `c1bytes` but the record's designation index is 4, exactly
charcnt, one past the end of the designation blob. -/
def c4bytes2 : List Nat :=
  [84, 90, 105, 102, 0,
   0, 0, 0, 0, 0, 0, 0, 0, 0, 0, 0, 0, 0, 0, 0,
   0, 0, 0, 0, 0, 0, 0, 0, 0, 0, 0, 0, 0, 0, 0, 2, 0, 0, 0, 1, 0, 0, 0, 4,
   0, 0, 0, 100, 0, 0, 0, 200,
   0, 0,
   0, 0, 0, 0, 0, 4,
   85, 84, 67, 0]

/-- A body whose only type index points past the one-record table. -/
def w4aBody : TzFileBody :=
  { tt_trans := [100, 200], ttinfo_indices := [1, 0],
    ttinfo_entries := [{ tt_utoff := 0, tt_isdst := false, tt_desigidx := 0 }],
    tz_designations := [85, 84, 67, 0], leap_pairs := [],
    std_indicators := [], ut_indicators := [] }

/-- A body whose record has designation index 9, past the blob. -/
def w4bBody : TzFileBody :=
  { tt_trans := [100, 200], ttinfo_indices := [0, 0],
    ttinfo_entries := [{ tt_utoff := 0, tt_isdst := false, tt_desigidx := 9 }],
    tz_designations := [85, 84, 67, 0], leap_pairs := [],
    std_indicators := [], ut_indicators := [] }

/-- A body whose designation blob has no NUL terminator at all. -/
def w4cBody : TzFileBody :=
  { tt_trans := [100, 200], ttinfo_indices := [0, 0],
    ttinfo_entries := [{ tt_utoff := 0, tt_isdst := false, tt_desigidx := 0 }],
    tz_designations := [85, 84, 67], leap_pairs := [],
    std_indicators := [], ut_indicators := [] }

/-- A body with an empty transition-type-index list, as decoding any input
with timecnt 0 produces. -/
def bodyNoIndices : TzFileBody :=
  { tt_trans := [], ttinfo_indices := [], ttinfo_entries := [],
    tz_designations := [], leap_pairs := [], std_indicators := [],
    ut_indicators := [] }

/-- The header of the round-trip scenario: timecnt 2, typecnt 1, charcnt 4. -/
def c1header : TzFileHeader :=
  { magic := tzifMagic, version := 0, _reserved := List.replicate 15 0,
    tzh_ttisutcnt := 0, tzh_ttisstdcnt := 0, tzh_leapcnt := 0,
    tzh_timecnt := 2, tzh_typecnt := 1, tzh_charcnt := 4 }

/-- The body bytes of the round-trip scenario (the 20 bytes after the
44-byte header of `c1bytes`). -/
def c1bodyBytes : List Nat :=
  [0, 0, 0, 100, 0, 0, 0, 200, 0, 0, 0, 0, 0, 0, 0, 0, 85, 84, 67, 0]

/-- The decoded body of the round-trip scenario. -/
def c1body : TzFileBody :=
  { tt_trans := [100, 200], ttinfo_indices := [0, 0],
    ttinfo_entries := [{ tt_utoff := 0, tt_isdst := false, tt_desigidx := 0 }],
    tz_designations := [85, 84, 67, 0], leap_pairs := [],
    std_indicators := [], ut_indicators := [] }

/-! Helper lemmas about the lossy UTF-8 model. -/

theorem lossyGo_nil (f : Nat) : lossyGo f [] = [] := by
  cases f <;> rfl

theorem lossyGo_fuel : ∀ (f1 f2 : Nat) (bs : List Nat),
    bs.length ≤ f1 → bs.length ≤ f2 → lossyGo f1 bs = lossyGo f2 bs := by
  intro f1
  induction f1 with
  | zero =>
    intro f2 bs h1 _
    have hbs : bs = [] := List.length_eq_zero.mp (Nat.le_zero.mp h1)
    subst hbs
    simp [lossyGo_nil]
  | succ f ih =>
    intro f2 bs h1 h2
    cases bs with
    | nil => simp [lossyGo_nil]
    | cons b0 rest =>
      cases f2 with
      | zero => simp at h2
      | succ g =>
        simp only [lossyGo]
        congr 1
        apply ih
        · simp only [List.length_cons] at h1
          have : (rest.drop (utf8Step b0 rest).2).length ≤ rest.length := by
            simp [List.length_drop]
          omega
        · simp only [List.length_cons] at h2
          have : (rest.drop (utf8Step b0 rest).2).length ≤ rest.length := by
            simp [List.length_drop]
          omega

theorem lossyUtf8_cons (b0 : Nat) (rest : List Nat) :
    lossyUtf8 (b0 :: rest) =
      (utf8Step b0 rest).1 ++ lossyUtf8 (rest.drop (utf8Step b0 rest).2) := by
  unfold lossyUtf8
  simp only [List.length_cons, lossyGo]
  congr 1
  apply lossyGo_fuel
  · simp [List.length_drop]
  · exact Nat.le_refl _

theorem utf8Step_fst_ne_nil (b0 : Nat) (rest : List Nat) : (utf8Step b0 rest).1 ≠ [] := by
  unfold utf8Step
  repeat' split
  all_goals simp [repl]

theorem utf8Step_head (b0 : Nat) (rest : List Nat) :
    ((utf8Step b0 rest).1.head? = some b0 ∧ (b0 < 128 ∨ 194 ≤ b0)) ∨
      (utf8Step b0 rest).1.head? = some 239 := by
  unfold utf8Step
  repeat' split
  all_goals simp [repl]
  all_goals omega

theorem utf8Step_ascii (b0 : Nat) (rest : List Nat) (h : b0 < 128) :
    utf8Step b0 rest = ([b0], 0) := by
  unfold utf8Step
  rw [if_pos h]

theorem exists_cons_of_head? {l : List Nat} {c : Nat} (h : l.head? = some c) :
    ∃ t, l = c :: t := by
  cases l with
  | nil => cases h
  | cons x t =>
    simp only [List.head?_cons, Option.some.injEq] at h
    exact ⟨t, by rw [h]⟩

theorem lossyUtf8_eq_nil {bs : List Nat} (h : lossyUtf8 bs = []) : bs = [] := by
  cases bs with
  | nil => rfl
  | cons b0 rest =>
    rw [lossyUtf8_cons] at h
    exact absurd (List.append_eq_nil.mp h).1 (utf8Step_fst_ne_nil b0 rest)

theorem lossyUtf8_ascii_peel (a : Nat) (ha : a < 128) (bs out : List Nat)
    (h : lossyUtf8 bs = a :: out) : ∃ rest, bs = a :: rest ∧ lossyUtf8 rest = out := by
  cases bs with
  | nil => cases h
  | cons b0 rest =>
    rw [lossyUtf8_cons] at h
    have hhead : ∀ c t, (utf8Step b0 rest).1 = c :: t → c = a := by
      intro c t hct
      rw [hct, List.cons_append] at h
      have hh := congrArg List.head? h
      simpa using hh
    by_cases hlt : b0 < 128
    · rw [utf8Step_ascii b0 rest hlt] at h
      simp only [List.cons_append, List.nil_append, List.drop_zero] at h
      injection h with h1 h2
      exact ⟨rest, by rw [h1], h2⟩
    · exfalso
      rcases utf8Step_head b0 rest with ⟨hh, hb⟩ | hh
      · obtain ⟨t, ht⟩ := exists_cons_of_head? hh
        have := hhead b0 t ht
        omega
      · obtain ⟨t, ht⟩ := exists_cons_of_head? hh
        have := hhead 239 t ht
        omega

theorem lossyUtf8_eq_tzifMagic_iff (bs : List Nat) :
    lossyUtf8 bs = tzifMagic ↔ bs = tzifMagic := by
  constructor
  · intro h
    rw [show tzifMagic = 84 :: [90, 105, 102] from rfl] at h
    obtain ⟨r1, hb1, h1⟩ := lossyUtf8_ascii_peel 84 (by omega) bs _ h
    obtain ⟨r2, hb2, h2⟩ := lossyUtf8_ascii_peel 90 (by omega) r1 _ h1
    obtain ⟨r3, hb3, h3⟩ := lossyUtf8_ascii_peel 105 (by omega) r2 _ h2
    obtain ⟨r4, hb4, h4⟩ := lossyUtf8_ascii_peel 102 (by omega) r3 _ h3
    have hr4 : r4 = [] := lossyUtf8_eq_nil h4
    subst hr4
    subst hb4
    subst hb3
    subst hb2
    subst hb1
    rfl
  · intro h
    subst h
    rfl

/-! Helper lemmas about the header decoder. -/

theorem try_from_magic_ok (value : List Nat)
    (hm : lossyUtf8 (value.take 4) = tzifMagic) :
    TzFileHeader.try_from value = .ok
      { magic := lossyUtf8 (value.take 4)
        version := value.getD 4 0
        _reserved := [value.getD 5 0, value.getD 6 0, value.getD 7 0, value.getD 8 0,
          value.getD 9 0, value.getD 10 0, value.getD 11 0, value.getD 12 0,
          value.getD 13 0, value.getD 14 0, value.getD 15 0, value.getD 16 0,
          value.getD 17 0, value.getD 18 0, value.getD 19 0]
        tzh_ttisutcnt := be32 (value.getD 20 0) (value.getD 21 0) (value.getD 22 0) (value.getD 23 0)
        tzh_ttisstdcnt := be32 (value.getD 24 0) (value.getD 25 0) (value.getD 26 0) (value.getD 27 0)
        tzh_leapcnt := be32 (value.getD 28 0) (value.getD 29 0) (value.getD 30 0) (value.getD 31 0)
        tzh_timecnt := be32 (value.getD 32 0) (value.getD 33 0) (value.getD 34 0) (value.getD 35 0)
        tzh_typecnt := be32 (value.getD 36 0) (value.getD 37 0) (value.getD 38 0) (value.getD 39 0)
        tzh_charcnt := be32 (value.getD 40 0) (value.getD 41 0) (value.getD 42 0) (value.getD 43 0) } := by
  unfold TzFileHeader.try_from
  simp only [hm]
  rw [if_neg (by simp)]

theorem try_from_magic_bad (value : List Nat)
    (hm : lossyUtf8 (value.take 4) ≠ tzifMagic) :
    TzFileHeader.try_from value =
      .error (.magicMismatch (lossyUtf8 (value.take 4))) := by
  unfold TzFileHeader.try_from
  rw [if_pos hm]

/-- C5: for every input buffer shorter than 44 bytes, `TzFile::from_bytes`
fails with the FormatError carrying the buffer size (the invalid-header-size
error return); it does not panic and reads nothing. -/
theorem c5_short_buffer_format_error (bytes : List Nat) (h : bytes.length < 44) :
    TzFile.from_bytes bytes = .error (.formatError bytes.length) := by
  simp [TzFile.from_bytes, h]

/-- Witness for C5 at the empty buffer. -/
theorem c5_witness :
    ([] : List Nat).length < 44 ∧
      TzFile.from_bytes [] = .error (.formatError 0) :=
  ⟨by decide, c5_short_buffer_format_error [] (by decide)⟩

/-- C10: on a body whose transition-type-index list is empty (as decoding
any timecnt-0 input produces), the aggregation pass does not return a
mapping at all: the bound `len() - 1` underflows and the code panics. -/
theorem c10_empty_indices_panics (body : TzFileBody)
    (h : body.ttinfo_indices = []) :
    aggregate body = .error .emptyIndices := by
  simp [aggregate, h]

/-- Witness for C10 at the all-empty body. -/
theorem c10_witness : aggregate bodyNoIndices = .error .emptyIndices :=
  c10_empty_indices_panics bodyNoIndices rfl

/-- C1: the round-trip scenario (timecnt 2, typecnt 1, charcnt 4, blob
UTC NUL, one record, transitions 100 and 200 with indices 0 and 0) decodes
and aggregates to exactly one record named UTC with offset 0 and DST false,
but its transition list is the empty list, not the single-element list
the claim requires: the insertion site uses the literal `vec![]`. -/
theorem c1_round_trip_eval :
    (TzFile.from_bytes c1bytes).map (fun f => aggregate f.body) =
      .ok (.ok [([85, 84, 67],
        { name := [85, 84, 67], ut_offset := 0, is_daylight_savings := false,
          transitions := [] })]) := by
  decide

/-- C2 counterexample: with timecnt 1 and an empty remaining buffer the
body decoder produces no value at all (the transition-time slice
`bytes[0..4]` panics); there is no TruncatedBody error return anywhere in
`TzFileBody::from_bytes_and_header`, whose only failure mode is a panic. -/
theorem c2_counterexample :
    TzFileBody.from_bytes_and_header [] c2header = none := by
  decide

/-- C3 counterexample: a 44-byte header whose timecnt bytes decode to -1 is
accepted by `TzFileHeader::try_from`; no header error is raised for a
negative count. -/
theorem c3_counterexample :
    TzFileHeader.try_from c3bytes = .ok c3header ∧ c3header.tzh_timecnt < 0 := by
  decide

/-- C3 amended: header decoding performs no sign validation of the six
counts: every 44-byte value whose first four bytes are the TZif magic
decodes successfully, each count field storing the big-endian signed value
of its four bytes, negative values included. -/
theorem c3_amended (value : List Nat) (hlen : value.length = 44)
    (hmagic : value.take 4 = tzifMagic) :
    ∃ hdr, TzFileHeader.try_from value = .ok hdr ∧
      hdr.tzh_ttisutcnt = be32 (value.getD 20 0) (value.getD 21 0) (value.getD 22 0) (value.getD 23 0) ∧
      hdr.tzh_ttisstdcnt = be32 (value.getD 24 0) (value.getD 25 0) (value.getD 26 0) (value.getD 27 0) ∧
      hdr.tzh_leapcnt = be32 (value.getD 28 0) (value.getD 29 0) (value.getD 30 0) (value.getD 31 0) ∧
      hdr.tzh_timecnt = be32 (value.getD 32 0) (value.getD 33 0) (value.getD 34 0) (value.getD 35 0) ∧
      hdr.tzh_typecnt = be32 (value.getD 36 0) (value.getD 37 0) (value.getD 38 0) (value.getD 39 0) ∧
      hdr.tzh_charcnt = be32 (value.getD 40 0) (value.getD 41 0) (value.getD 42 0) (value.getD 43 0) :=
  ⟨_, try_from_magic_ok value (by rw [hmagic]; rfl), rfl, rfl, rfl, rfl, rfl, rfl⟩

/-- Witness for C3 amended at the negative-timecnt header bytes. -/
theorem c3_amended_witness :
    ∃ hdr, TzFileHeader.try_from c3bytes = .ok hdr ∧
      hdr.tzh_ttisutcnt = be32 (c3bytes.getD 20 0) (c3bytes.getD 21 0) (c3bytes.getD 22 0) (c3bytes.getD 23 0) ∧
      hdr.tzh_ttisstdcnt = be32 (c3bytes.getD 24 0) (c3bytes.getD 25 0) (c3bytes.getD 26 0) (c3bytes.getD 27 0) ∧
      hdr.tzh_leapcnt = be32 (c3bytes.getD 28 0) (c3bytes.getD 29 0) (c3bytes.getD 30 0) (c3bytes.getD 31 0) ∧
      hdr.tzh_timecnt = be32 (c3bytes.getD 32 0) (c3bytes.getD 33 0) (c3bytes.getD 34 0) (c3bytes.getD 35 0) ∧
      hdr.tzh_typecnt = be32 (c3bytes.getD 36 0) (c3bytes.getD 37 0) (c3bytes.getD 38 0) (c3bytes.getD 39 0) ∧
      hdr.tzh_charcnt = be32 (c3bytes.getD 40 0) (c3bytes.getD 41 0) (c3bytes.getD 42 0) (c3bytes.getD 43 0) :=
  c3_amended c3bytes (by decide) (by decide)

/-- C7: for every 44-byte input whose first four bytes are not the TZif
tag, header decoding fails with MagicMismatch (carrying the lossily decoded
magic); whenever the first four bytes are exactly the tag, header decoding
does not fail at all. -/
theorem c7_magic_check (value : List Nat) (hlen : value.length = 44) :
    (value.take 4 ≠ tzifMagic →
      TzFileHeader.try_from value =
        .error (.magicMismatch (lossyUtf8 (value.take 4)))) ∧
    (value.take 4 = tzifMagic → ∃ hdr, TzFileHeader.try_from value = .ok hdr) := by
  constructor
  · intro hne
    exact try_from_magic_bad value
      (fun hc => hne ((lossyUtf8_eq_tzifMagic_iff _).mp hc))
  · intro heq
    exact ⟨_, try_from_magic_ok value (by rw [heq]; rfl)⟩

/-- Witness for C7 at an all-zero 44-byte buffer and at `c3bytes`. -/
theorem c7_witness :
    TzFileHeader.try_from (List.replicate 44 0) =
      .error (.magicMismatch (lossyUtf8 ((List.replicate 44 0).take 4))) ∧
    ∃ hdr, TzFileHeader.try_from c3bytes = .ok hdr :=
  ⟨(c7_magic_check (List.replicate 44 0) (by decide)).1 (by decide),
   (c7_magic_check c3bytes (by decide)).2 (by decide)⟩

/-- C8: whenever header decoding succeeds the version field is the raw
byte at offset 4, verbatim; and success depends only on the magic bytes,
so no version byte value causes header decoding to fail. -/
theorem c8_version_verbatim (value : List Nat) :
    (∀ hdr, TzFileHeader.try_from value = .ok hdr →
      hdr.version = value.getD 4 0) ∧
    ((TzFileHeader.try_from value).isOk = true ↔
      lossyUtf8 (value.take 4) = tzifMagic) := by
  constructor
  · intro hdr h
    by_cases hm : lossyUtf8 (value.take 4) = tzifMagic
    · rw [try_from_magic_ok value hm] at h
      cases h
      rfl
    · rw [try_from_magic_bad value hm] at h
      cases h
  · constructor
    · intro hok
      by_cases hm : lossyUtf8 (value.take 4) = tzifMagic
      · exact hm
      · rw [try_from_magic_bad value hm] at hok
        cases hok
    · intro hm
      rw [try_from_magic_ok value hm]
      rfl

/-- Witness for C8 at the negative-timecnt header bytes. -/
theorem c8_witness :
    c3header.version = c3bytes.getD 4 0 ∧
      (TzFileHeader.try_from c3bytes).isOk = true :=
  ⟨(c8_version_verbatim c3bytes).1 c3header (by decide),
   (c8_version_verbatim c3bytes).2.mpr (by decide)⟩

/-- C4 counterexample: on a decoded file whose first included position has
type index 1 against a one-record table, the aggregation pass panics at the
`Vec` index (no IndexOutOfRange error value exists to return); and with a
designation index equal to charcnt, the pass panics at the `split_once`
unwrap, not with an IndexOutOfRange error. -/
theorem c4_counterexample :
    (TzFile.from_bytes c4bytes).map (fun f => aggregate f.body) =
        .ok (.error PanicKind.ttinfoIndex) ∧
      (TzFile.from_bytes c4bytes2).map (fun f => aggregate f.body) =
        .ok (.error PanicKind.splitNone) := by
  decide

/-! Helper lemmas about the aggregation loop. -/

theorem resolveName_entry_none (body : TzFileBody) (t : Nat)
    (h : body.ttinfo_entries.get? t = none) :
    resolveName body t = .error .ttinfoIndex := by
  unfold resolveName
  rw [h]

theorem resolveName_entry_some (body : TzFileBody) (t : Nat) (info : TTInfo)
    (h : body.ttinfo_entries.get? t = some info) :
    resolveName body t =
      (match strGetFrom body.tz_designations info.tt_desigidx with
       | none => .error .desigGet
       | some suffix =>
         match splitOnceNul suffix with
         | none => .error .splitNone
         | some name => .ok (info.tt_utoff, info.tt_isdst, name)) := by
  unfold resolveName
  rw [h]

theorem aggGo_trans_none (body : TzFileBody) (t0 : Nat) (rest : List Nat)
    (idx : Nat) (table : List (List Nat × Timezone))
    (htr : body.tt_trans.get? idx = none) :
    aggGo body (t0 :: rest) idx table = .error .transIndex := by
  unfold aggGo
  rw [htr]

theorem aggGo_resolve_err (body : TzFileBody) (t0 : Nat) (rest : List Nat)
    (idx : Nat) (table : List (List Nat × Timezone)) (tr : Int) (k : PanicKind)
    (htr : body.tt_trans.get? idx = some tr)
    (hres : resolveName body t0 = .error k) :
    aggGo body (t0 :: rest) idx table = .error k := by
  unfold aggGo
  rw [htr, hres]

theorem aggGo_step (body : TzFileBody) (t0 : Nat) (rest : List Nat) (idx : Nat)
    (table : List (List Nat × Timezone)) (tr : Int) (off : Int) (dst : Bool)
    (name : List Nat)
    (htr : body.tt_trans.get? idx = some tr)
    (hres : resolveName body t0 = .ok (off, dst, name)) :
    aggGo body (t0 :: rest) idx table =
      (match tableGet table name with
       | some _ => aggGo body rest (idx + 1) (tablePush table name tr)
       | none => aggGo body rest (idx + 1) (table ++ [(name,
           { name := name, ut_offset := off, is_daylight_savings := dst,
             transitions := [] })])) := by
  conv_lhs => unfold aggGo
  rw [htr, hres]

theorem aggGo_ok_resolve (body : TzFileBody) :
    ∀ (ts : List Nat) (idx : Nat) (table table2 : List (List Nat × Timezone)),
      aggGo body ts idx table = .ok table2 →
      ∀ t ∈ ts, ∃ v, resolveName body t = .ok v := by
  intro ts
  induction ts with
  | nil =>
    intro idx table table2 _ t ht
    cases ht
  | cons t0 rest ih =>
    intro idx table table2 hagg t ht
    cases htr : body.tt_trans.get? idx with
    | none =>
      rw [aggGo_trans_none body t0 rest idx table htr] at hagg
      cases hagg
    | some tr =>
      cases hres : resolveName body t0 with
      | error k =>
        rw [aggGo_resolve_err body t0 rest idx table tr k htr hres] at hagg
        cases hagg
      | ok v =>
        obtain ⟨off, dst, name⟩ := v
        rw [aggGo_step body t0 rest idx table tr off dst name htr hres] at hagg
        rcases List.mem_cons.mp ht with rfl | htail
        · exact ⟨(off, dst, name), hres⟩
        · cases htab : tableGet table name with
          | some w => rw [htab] at hagg; exact ih _ _ _ hagg t htail
          | none => rw [htab] at hagg; exact ih _ _ _ hagg t htail

/-- C4 amended: at each included position the aggregation pass fails by
panicking, not by returning an error value: the `Vec` index panics when the
type index is out of range of the local-time-type table; the unwrap of
`str::get` panics when the designation index is past the end of the
designation string or off a char boundary; the unwrap of `split_once`
panics when no NUL follows (which is what happens at a designation index
equal to charcnt, where the suffix is empty); and whenever the pass
completes, every included position resolved without failing. -/
theorem c4_amended (body : TzFileBody) (t : Nat) :
    (body.ttinfo_entries.get? t = none →
      resolveName body t = .error .ttinfoIndex) ∧
    (∀ info, body.ttinfo_entries.get? t = some info →
      (strGetFrom body.tz_designations info.tt_desigidx = none →
        resolveName body t = .error .desigGet) ∧
      (∀ suffix, strGetFrom body.tz_designations info.tt_desigidx = some suffix →
        splitOnceNul suffix = none →
        resolveName body t = .error .splitNone)) ∧
    (∀ table, aggregate body = .ok table →
      ∀ i ti, i + 1 < body.ttinfo_indices.length →
        body.ttinfo_indices.get? i = some ti →
        ∃ v, resolveName body ti = .ok v) := by
  refine ⟨?_, ?_, ?_⟩
  · intro h
    exact resolveName_entry_none body t h
  · intro info hinfo
    constructor
    · intro h
      rw [resolveName_entry_some body t info hinfo, h]
    · intro suffix hs h
      rw [resolveName_entry_some body t info hinfo, hs]
      show (match splitOnceNul suffix with
        | none => (.error .splitNone : Except PanicKind (Int × Bool × List Nat))
        | some name => .ok (info.tt_utoff, info.tt_isdst, name)) =
          .error .splitNone
      rw [h]
  · intro table hagg i ti hi hget
    unfold aggregate at hagg
    split at hagg
    · cases hagg
    · refine aggGo_ok_resolve body _ 0 [] table hagg ti ?_
      have hmem : (body.ttinfo_indices.take (body.ttinfo_indices.length - 1))[i]? =
          some ti := by
        rw [List.get?_eq_getElem?] at hget
        rw [List.getElem?_take_of_lt (by omega)]
        exact hget
      exact List.getElem?_mem hmem

/-- Witness for C4 amended: each panic case at a concrete body, and the
resolution success on the round-trip body, whose aggregation completes. -/
theorem c4_amended_witness :
    resolveName w4aBody 1 = .error .ttinfoIndex ∧
    resolveName w4bBody 0 = .error .desigGet ∧
    resolveName w4cBody 0 = .error .splitNone ∧
    (∃ v, resolveName c1body 0 = .ok v) :=
  ⟨(c4_amended w4aBody 1).1 (by decide),
   ((c4_amended w4bBody 0).2.1
     { tt_utoff := 0, tt_isdst := false, tt_desigidx := 9 } (by decide)).1 (by decide),
   (((c4_amended w4cBody 0).2.1
     { tt_utoff := 0, tt_isdst := false, tt_desigidx := 0 } (by decide)).2
       [85, 84, 67] (by decide) (by decide)),
   (c4_amended c1body 0).2.2
     [([85, 84, 67],
       { name := [85, 84, 67], ut_offset := 0, is_daylight_savings := false,
         transitions := [] })]
     (by decide) 0 0 (by decide) (by decide)⟩

/-! Arithmetic helper lemmas for the wrapping cursor arithmetic. -/

theorem wrap64_lt (n : Nat) : wrap64 n < U64 := by
  unfold wrap64 U64
  omega

theorem asUsize_lt (i : Int) : asUsize i < U64 := by
  unfold asUsize U64
  have h1 : 0 ≤ i % (18446744073709551616 : Int) := Int.emod_nonneg i (by norm_num)
  have h2 : i % (18446744073709551616 : Int) < (18446744073709551616 : Int) :=
    Int.emod_lt_of_pos i (by norm_num)
  omega

theorem wrap64_add_no_wrap (s w : Nat) (hw : w < U64)
    (hle : s ≤ wrap64 (s + w)) : wrap64 (s + w) = s + w := by
  unfold wrap64 U64 at *
  omega

theorem wrap64_mul4_mod (x : Nat) : wrap64 (x * 4) % 4 = 0 := by
  unfold wrap64 U64
  omega

theorem wrap64_mul8_mod (x : Nat) : wrap64 (x * 8) % 8 = 0 := by
  unfold wrap64 U64
  omega

theorem transEnd_eq (h : TzFileHeader) :
    transEnd h = wrap64 (asUsize h.tzh_timecnt * 4) := by
  unfold transEnd wrap64 U64
  omega

/-! Helper lemmas about slices and the section decoders. -/

theorem sliceRange_some (bytes : List Nat) (s e : Nat) (h1 : s ≤ e)
    (h2 : e ≤ bytes.length) :
    sliceRange bytes s e = some ((bytes.drop s).take (e - s)) := by
  unfold sliceRange
  rw [if_pos ⟨h1, h2⟩]

theorem sliceRange_inv {bytes : List Nat} {s e : Nat} {l : List Nat}
    (h : sliceRange bytes s e = some l) :
    s ≤ e ∧ e ≤ bytes.length ∧ l = (bytes.drop s).take (e - s) := by
  unfold sliceRange at h
  split at h
  · rename_i hc
    cases h
    exact ⟨hc.1, hc.2, rfl⟩
  · cases h

theorem slice_length (bytes : List Nat) (s e : Nat) (h1 : s ≤ e)
    (h2 : e ≤ bytes.length) :
    ((bytes.drop s).take (e - s)).length = e - s := by
  simp only [List.length_take, List.length_drop]
  omega

theorem decodeBe32List_total :
    ∀ l : List Nat, l.length % 4 = 0 →
      ∃ r, decodeBe32List l = some r ∧ r.length = l.length / 4
  | [] => fun _ => ⟨[], rfl, rfl⟩
  | [_] => fun h => by simp at h
  | [_, _] => fun h => by simp at h
  | [_, _, _] => fun h => by simp at h
  | b0 :: b1 :: b2 :: b3 :: rest => fun h => by
      obtain ⟨r, hr, hlen⟩ := decodeBe32List_total rest (by
        simp only [List.length_cons] at h
        omega)
      refine ⟨be32 b0 b1 b2 b3 :: r, ?_, ?_⟩
      · simp [decodeBe32List, hr]
      · simp only [List.length_cons, hlen]
        omega

theorem decodeLeapPairs_total :
    ∀ l : List Nat, l.length % 8 = 0 →
      ∃ r, decodeLeapPairs l = some r ∧ r.length = l.length / 8
  | [] => fun _ => ⟨[], rfl, rfl⟩
  | [_] => fun h => by simp at h
  | [_, _] => fun h => by simp at h
  | [_, _, _] => fun h => by simp at h
  | [_, _, _, _] => fun h => by simp at h
  | [_, _, _, _, _] => fun h => by simp at h
  | [_, _, _, _, _, _] => fun h => by simp at h
  | [_, _, _, _, _, _, _] => fun h => by simp at h
  | b0 :: b1 :: b2 :: b3 :: b4 :: b5 :: b6 :: b7 :: rest => fun h => by
      obtain ⟨r, hr, hlen⟩ := decodeLeapPairs_total rest (by
        simp only [List.length_cons] at h
        omega)
      refine ⟨(be32 b0 b1 b2 b3, be32 b4 b5 b6 b7) :: r, ?_, ?_⟩
      · simp [decodeLeapPairs, hr]
      · simp only [List.length_cons, hlen]
        omega

theorem decodeTTInfos_length :
    ∀ l : List Nat, (decodeTTInfos l).length = l.length / 6
  | [] => by simp [decodeTTInfos]
  | [_] => by simp [decodeTTInfos]
  | [_, _] => by simp [decodeTTInfos]
  | [_, _, _] => by simp [decodeTTInfos]
  | [_, _, _, _] => by simp [decodeTTInfos]
  | [_, _, _, _, _] => by simp [decodeTTInfos]
  | b0 :: b1 :: b2 :: b3 :: b4 :: b5 :: rest => by
      simp only [decodeTTInfos, List.length_cons, decodeTTInfos_length rest]
      omega

theorem bodyDecode_some_of_fit (bytes : List Nat) (h : TzFileHeader)
    (hf : bodySectionsFit bytes h) :
    ∃ body, TzFileBody.from_bytes_and_header bytes h = some body := by
  obtain ⟨h1, h2a, h2b, h3a, h3b, h4a, h4b, h5a, h5b, h6a, h6b, h7a, h7b⟩ := hf
  have hs1 := sliceRange_some bytes 0 (transEnd h) (Nat.zero_le _) h1
  have hs2 := sliceRange_some bytes (transEnd h) (idxEnd h) h2a h2b
  have hs3 := sliceRange_some bytes (idxEnd h) (ttinfoEnd h) h3a h3b
  have hs4 := sliceRange_some bytes (ttinfoEnd h) (desigEnd h) h4a h4b
  have hs5 := sliceRange_some bytes (desigEnd h) (leapEnd h) h5a h5b
  have hs6 := sliceRange_some bytes (leapEnd h) (stdEnd h) h6a h6b
  have hs7 := sliceRange_some bytes (stdEnd h) (utEnd h) h7a h7b
  have hdiv1 : ((bytes.drop 0).take (transEnd h - 0)).length % 4 = 0 := by
    rw [slice_length bytes 0 (transEnd h) (Nat.zero_le _) h1, transEnd_eq]
    simp only [Nat.sub_zero]
    exact wrap64_mul4_mod _
  obtain ⟨r1, hr1, _⟩ := decodeBe32List_total _ hdiv1
  have he5 : leapEnd h = desigEnd h + wrap64 (asUsize h.tzh_leapcnt * 8) :=
    wrap64_add_no_wrap _ _ (wrap64_lt _) h5a
  have hdiv5 : ((bytes.drop (desigEnd h)).take (leapEnd h - desigEnd h)).length % 8 = 0 := by
    rw [slice_length bytes (desigEnd h) (leapEnd h) h5a h5b, he5,
      Nat.add_sub_cancel_left]
    exact wrap64_mul8_mod _
  obtain ⟨r5, hr5, _⟩ := decodeLeapPairs_total _ hdiv5
  refine ⟨{ tt_trans := r1
            ttinfo_indices := (bytes.drop (transEnd h)).take (idxEnd h - transEnd h)
            ttinfo_entries :=
              decodeTTInfos ((bytes.drop (idxEnd h)).take (ttinfoEnd h - idxEnd h))
            tz_designations :=
              lossyUtf8 ((bytes.drop (ttinfoEnd h)).take (desigEnd h - ttinfoEnd h))
            leap_pairs := r5
            std_indicators :=
              ((bytes.drop (leapEnd h)).take (stdEnd h - leapEnd h)).map (fun b => b == 1)
            ut_indicators :=
              ((bytes.drop (stdEnd h)).take (utEnd h - stdEnd h)).map (fun b => b == 1) }, ?_⟩
  unfold TzFileBody.from_bytes_and_header
  rw [hs1]
  simp only [Option.bind_eq_bind, Option.some_bind]
  rw [hr1]
  simp only [Option.some_bind]
  rw [hs2]
  simp only [Option.some_bind]
  rw [hs3]
  simp only [Option.some_bind]
  rw [hs4]
  simp only [Option.some_bind]
  rw [hs5]
  simp only [Option.some_bind]
  rw [hr5]
  simp only [Option.some_bind]
  rw [hs6]
  simp only [Option.some_bind]
  rw [hs7]
  simp only [Option.some_bind]

theorem bodyDecode_inv (bytes : List Nat) (h : TzFileHeader) (body : TzFileBody)
    (hdec : TzFileBody.from_bytes_and_header bytes h = some body) :
    bodySectionsFit bytes h ∧
    decodeBe32List ((bytes.drop 0).take (transEnd h - 0)) = some body.tt_trans ∧
    body.ttinfo_indices = (bytes.drop (transEnd h)).take (idxEnd h - transEnd h) ∧
    body.ttinfo_entries =
      decodeTTInfos ((bytes.drop (idxEnd h)).take (ttinfoEnd h - idxEnd h)) ∧
    body.tz_designations =
      lossyUtf8 ((bytes.drop (ttinfoEnd h)).take (desigEnd h - ttinfoEnd h)) ∧
    decodeLeapPairs ((bytes.drop (desigEnd h)).take (leapEnd h - desigEnd h)) =
      some body.leap_pairs ∧
    body.std_indicators =
      ((bytes.drop (leapEnd h)).take (stdEnd h - leapEnd h)).map (fun b => b == 1) ∧
    body.ut_indicators =
      ((bytes.drop (stdEnd h)).take (utEnd h - stdEnd h)).map (fun b => b == 1) := by
  unfold TzFileBody.from_bytes_and_header at hdec
  simp only [Option.bind_eq_bind] at hdec
  cases hx1 : sliceRange bytes 0 (transEnd h) with
  | none => rw [hx1] at hdec; simp only [Option.none_bind] at hdec; cases hdec
  | some l1 =>
  rw [hx1] at hdec
  simp only [Option.some_bind] at hdec
  obtain ⟨b1a, b1b, hl1⟩ := sliceRange_inv hx1
  subst hl1
  cases hd1 : decodeBe32List ((bytes.drop 0).take (transEnd h - 0)) with
  | none => rw [hd1] at hdec; simp only [Option.none_bind] at hdec; cases hdec
  | some r1 =>
  rw [hd1] at hdec
  simp only [Option.some_bind] at hdec
  cases hx2 : sliceRange bytes (transEnd h) (idxEnd h) with
  | none => rw [hx2] at hdec; simp only [Option.none_bind] at hdec; cases hdec
  | some l2 =>
  rw [hx2] at hdec
  simp only [Option.some_bind] at hdec
  obtain ⟨b2a, b2b, hl2⟩ := sliceRange_inv hx2
  subst hl2
  cases hx3 : sliceRange bytes (idxEnd h) (ttinfoEnd h) with
  | none => rw [hx3] at hdec; simp only [Option.none_bind] at hdec; cases hdec
  | some l3 =>
  rw [hx3] at hdec
  simp only [Option.some_bind] at hdec
  obtain ⟨b3a, b3b, hl3⟩ := sliceRange_inv hx3
  subst hl3
  cases hx4 : sliceRange bytes (ttinfoEnd h) (desigEnd h) with
  | none => rw [hx4] at hdec; simp only [Option.none_bind] at hdec; cases hdec
  | some l4 =>
  rw [hx4] at hdec
  simp only [Option.some_bind] at hdec
  obtain ⟨b4a, b4b, hl4⟩ := sliceRange_inv hx4
  subst hl4
  cases hx5 : sliceRange bytes (desigEnd h) (leapEnd h) with
  | none => rw [hx5] at hdec; simp only [Option.none_bind] at hdec; cases hdec
  | some l5 =>
  rw [hx5] at hdec
  simp only [Option.some_bind] at hdec
  obtain ⟨b5a, b5b, hl5⟩ := sliceRange_inv hx5
  subst hl5
  cases hd5 : decodeLeapPairs ((bytes.drop (desigEnd h)).take (leapEnd h - desigEnd h)) with
  | none => rw [hd5] at hdec; simp only [Option.none_bind] at hdec; cases hdec
  | some r5 =>
  rw [hd5] at hdec
  simp only [Option.some_bind] at hdec
  cases hx6 : sliceRange bytes (leapEnd h) (stdEnd h) with
  | none => rw [hx6] at hdec; simp only [Option.none_bind] at hdec; cases hdec
  | some l6 =>
  rw [hx6] at hdec
  simp only [Option.some_bind] at hdec
  obtain ⟨b6a, b6b, hl6⟩ := sliceRange_inv hx6
  subst hl6
  cases hx7 : sliceRange bytes (stdEnd h) (utEnd h) with
  | none => rw [hx7] at hdec; simp only [Option.none_bind] at hdec; cases hdec
  | some l7 =>
  rw [hx7] at hdec
  simp only [Option.some_bind] at hdec
  obtain ⟨b7a, b7b, hl7⟩ := sliceRange_inv hx7
  subst hl7
  cases hdec
  exact ⟨⟨b1b, b2a, b2b, b3a, b3b, b4a, b4b, b5a, b5b, b6a, b6b, b7a, b7b⟩,
    rfl, rfl, rfl, rfl, rfl, rfl, rfl⟩

/-- C2 amended: `TzFileBody::from_bytes_and_header` fails exactly when some
body section's slice bounds (the running cursor and the cursor plus the
section's computed length, in the fixed section order) fall outside the
remaining buffer; the failure is a panic at the slice index that produces
no value and no error report, since the function has no TruncatedBody (or
any other) error return. -/
theorem c2_amended (bytes : List Nat) (h : TzFileHeader) :
    TzFileBody.from_bytes_and_header bytes h = none ↔
      ¬ bodySectionsFit bytes h := by
  constructor
  · intro hnone hf
    obtain ⟨body, hsome⟩ := bodyDecode_some_of_fit bytes h hf
    rw [hsome] at hnone
    cases hnone
  · intro hnf
    cases hdec : TzFileBody.from_bytes_and_header bytes h with
    | none => rfl
    | some body => exact absurd (bodyDecode_inv bytes h body hdec).1 hnf

/-! Per-section cursor lemmas: under the i32 range of the counts and a
buffer shorter than 2^63 bytes (a Rust slice never exceeds isize::MAX),
an in-bounds section end forces the count to be non-negative and the
cursor arithmetic not to wrap. -/

theorem transEnd_step (h : TzFileHeader) (len : Nat)
    (hlen : len < 9223372036854775808) (hc : i32Range h.tzh_timecnt)
    (hf : transEnd h ≤ len) :
    0 ≤ h.tzh_timecnt ∧ transEnd h = h.tzh_timecnt.toNat * 4 := by
  obtain ⟨hc1, hc2⟩ := hc
  unfold transEnd wrap64 asUsize U64 at *
  omega

theorem idxEnd_step (h : TzFileHeader) (len : Nat)
    (hlen : len < 9223372036854775808) (hc : i32Range h.tzh_timecnt)
    (hs : transEnd h ≤ len)
    (hse : transEnd h ≤ idxEnd h) (hend : idxEnd h ≤ len) :
    0 ≤ h.tzh_timecnt ∧ idxEnd h = transEnd h + h.tzh_timecnt.toNat := by
  obtain ⟨hc1, hc2⟩ := hc
  unfold idxEnd wrap64 asUsize U64 at *
  omega

theorem ttinfoEnd_step (h : TzFileHeader) (len : Nat)
    (hlen : len < 9223372036854775808) (hc : i32Range h.tzh_typecnt)
    (hs : idxEnd h ≤ len)
    (hse : idxEnd h ≤ ttinfoEnd h) (hend : ttinfoEnd h ≤ len) :
    0 ≤ h.tzh_typecnt ∧ ttinfoEnd h = idxEnd h + h.tzh_typecnt.toNat * 6 := by
  obtain ⟨hc1, hc2⟩ := hc
  unfold ttinfoEnd ttinfo_size_unpadded sizeOfTTInfo wrap64 asUsize U64 at *
  simp only [Nat.cast_ofNat] at hse hend ⊢
  rcases le_or_lt 0 h.tzh_typecnt with hpos | hneg
  · have h1 : (h.tzh_typecnt % (18446744073709551616 : Int)).toNat = h.tzh_typecnt.toNat := by
      omega
    rw [h1] at hse hend ⊢
    have h2 : h.tzh_typecnt.toNat * (8 - 2) % 18446744073709551616 =
        h.tzh_typecnt.toNat * (8 - 2) := by omega
    rw [h2] at hse hend ⊢
    exact ⟨hpos, by omega⟩
  · exfalso
    have h1 : (h.tzh_typecnt % (18446744073709551616 : Int)).toNat =
        (h.tzh_typecnt + 18446744073709551616).toNat := by omega
    rw [h1] at hse hend
    have h2 : (h.tzh_typecnt + 18446744073709551616).toNat * (8 - 2) % 18446744073709551616 =
        (h.tzh_typecnt + 18446744073709551616).toNat * (8 - 2) -
          5 * 18446744073709551616 := by omega
    rw [h2] at hse hend
    rcases Nat.lt_or_ge
        (idxEnd h + ((h.tzh_typecnt + 18446744073709551616).toNat * (8 - 2) -
          5 * 18446744073709551616)) 18446744073709551616 with hlt | hge
    · rw [Nat.mod_eq_of_lt hlt] at hend
      omega
    · have h3 : (idxEnd h + ((h.tzh_typecnt + 18446744073709551616).toNat * (8 - 2) -
          5 * 18446744073709551616)) % 18446744073709551616 =
          idxEnd h + ((h.tzh_typecnt + 18446744073709551616).toNat * (8 - 2) -
            5 * 18446744073709551616) - 18446744073709551616 := by omega
      rw [h3] at hse
      omega

theorem desigEnd_step (h : TzFileHeader) (len : Nat)
    (hlen : len < 9223372036854775808) (hc : i32Range h.tzh_charcnt)
    (hs : ttinfoEnd h ≤ len)
    (hse : ttinfoEnd h ≤ desigEnd h) (hend : desigEnd h ≤ len) :
    0 ≤ h.tzh_charcnt ∧ desigEnd h = ttinfoEnd h + h.tzh_charcnt.toNat := by
  obtain ⟨hc1, hc2⟩ := hc
  unfold desigEnd wrap64 asUsize U64 at *
  omega

theorem leapEnd_step (h : TzFileHeader) (len : Nat)
    (hlen : len < 9223372036854775808) (hc : i32Range h.tzh_leapcnt)
    (hs : desigEnd h ≤ len)
    (hse : desigEnd h ≤ leapEnd h) (hend : leapEnd h ≤ len) :
    0 ≤ h.tzh_leapcnt ∧ leapEnd h = desigEnd h + h.tzh_leapcnt.toNat * 8 := by
  obtain ⟨hc1, hc2⟩ := hc
  unfold leapEnd wrap64 asUsize U64 at *
  omega

theorem stdEnd_step (h : TzFileHeader) (len : Nat)
    (hlen : len < 9223372036854775808) (hc : i32Range h.tzh_ttisstdcnt)
    (hs : leapEnd h ≤ len)
    (hse : leapEnd h ≤ stdEnd h) (hend : stdEnd h ≤ len) :
    0 ≤ h.tzh_ttisstdcnt ∧ stdEnd h = leapEnd h + h.tzh_ttisstdcnt.toNat := by
  obtain ⟨hc1, hc2⟩ := hc
  unfold stdEnd wrap64 asUsize U64 at *
  omega

theorem utEnd_step (h : TzFileHeader) (len : Nat)
    (hlen : len < 9223372036854775808) (hc : i32Range h.tzh_ttisutcnt)
    (hs : stdEnd h ≤ len)
    (hse : stdEnd h ≤ utEnd h) (hend : utEnd h ≤ len) :
    0 ≤ h.tzh_ttisutcnt ∧ utEnd h = stdEnd h + h.tzh_ttisutcnt.toNat := by
  obtain ⟨hc1, hc2⟩ := hc
  unfold utEnd wrap64 asUsize U64 at *
  omega

/-- C9: whenever body decoding succeeds (on a buffer below the Rust slice
size bound of 2^63 bytes, with the header counts in i32 range as
`TzFileHeader::try_from` guarantees), the decoded collection lengths equal
the header counts: tt_trans and ttinfo_indices have timecnt elements,
ttinfo_entries has typecnt, the designation string is decoded from exactly
charcnt bytes of the buffer, leap_pairs has leapcnt, std_indicators has
isstdcnt, and ut_indicators has isutcnt elements. -/
theorem c9_lengths (bytes : List Nat) (h : TzFileHeader) (body : TzFileBody)
    (hlen : bytes.length < 9223372036854775808) (hrange : headerInRange h)
    (hdec : TzFileBody.from_bytes_and_header bytes h = some body) :
    (body.tt_trans.length : Int) = h.tzh_timecnt ∧
    (body.ttinfo_indices.length : Int) = h.tzh_timecnt ∧
    (body.ttinfo_entries.length : Int) = h.tzh_typecnt ∧
    (0 ≤ h.tzh_charcnt ∧
      body.tz_designations =
        lossyUtf8 ((bytes.drop (ttinfoEnd h)).take h.tzh_charcnt.toNat) ∧
      ttinfoEnd h + h.tzh_charcnt.toNat ≤ bytes.length) ∧
    (body.leap_pairs.length : Int) = h.tzh_leapcnt ∧
    (body.std_indicators.length : Int) = h.tzh_ttisstdcnt ∧
    (body.ut_indicators.length : Int) = h.tzh_ttisutcnt := by
  obtain ⟨hfit, hbe, hidx, hent, hdesig, hleap, hstd, hut⟩ :=
    bodyDecode_inv bytes h body hdec
  obtain ⟨f1, f2a, f2b, f3a, f3b, f4a, f4b, f5a, f5b, f6a, f6b, f7a, f7b⟩ := hfit
  obtain ⟨hcu, hcs, hcl, hct, hcy, hcc⟩ := hrange
  obtain ⟨ht0, e1⟩ := transEnd_step h bytes.length hlen hct f1
  obtain ⟨_, e2⟩ := idxEnd_step h bytes.length hlen hct f1 f2a f2b
  obtain ⟨hy0, e3⟩ := ttinfoEnd_step h bytes.length hlen hcy f2b f3a f3b
  obtain ⟨hchar0, e4⟩ := desigEnd_step h bytes.length hlen hcc f3b f4a f4b
  obtain ⟨hl0, e5⟩ := leapEnd_step h bytes.length hlen hcl f4b f5a f5b
  obtain ⟨hs0, e6⟩ := stdEnd_step h bytes.length hlen hcs f5b f6a f6b
  obtain ⟨hu0, e7⟩ := utEnd_step h bytes.length hlen hcu f6b f7a f7b
  have hsl1 : ((bytes.drop 0).take (transEnd h - 0)).length = transEnd h := by
    rw [slice_length bytes 0 (transEnd h) (Nat.zero_le _) f1]
    omega
  have hdiv1 : ((bytes.drop 0).take (transEnd h - 0)).length % 4 = 0 := by
    rw [hsl1, e1]
    omega
  obtain ⟨r1, hr1, hr1len⟩ := decodeBe32List_total _ hdiv1
  have htrans : body.tt_trans = r1 := by
    rw [hr1] at hbe
    exact (Option.some.inj hbe).symm
  have len1 : body.tt_trans.length = h.tzh_timecnt.toNat := by
    rw [htrans, hr1len, hsl1, e1]
    omega
  have len2 : body.ttinfo_indices.length = h.tzh_timecnt.toNat := by
    rw [hidx, slice_length bytes (transEnd h) (idxEnd h) f2a f2b, e2]
    omega
  have len3 : body.ttinfo_entries.length = h.tzh_typecnt.toNat := by
    rw [hent, decodeTTInfos_length,
      slice_length bytes (idxEnd h) (ttinfoEnd h) f3a f3b, e3]
    omega
  have hdes : body.tz_designations =
      lossyUtf8 ((bytes.drop (ttinfoEnd h)).take h.tzh_charcnt.toNat) := by
    rw [hdesig]
    have hgap : desigEnd h - ttinfoEnd h = h.tzh_charcnt.toNat := by omega
    rw [hgap]
  have hsl5 : ((bytes.drop (desigEnd h)).take (leapEnd h - desigEnd h)).length =
      leapEnd h - desigEnd h :=
    slice_length bytes _ _ f5a f5b
  have hdiv5 : ((bytes.drop (desigEnd h)).take (leapEnd h - desigEnd h)).length % 8 = 0 := by
    rw [hsl5]
    omega
  obtain ⟨r5, hr5, hr5len⟩ := decodeLeapPairs_total _ hdiv5
  have hlp : body.leap_pairs = r5 := by
    rw [hr5] at hleap
    exact (Option.some.inj hleap).symm
  have len5 : body.leap_pairs.length = h.tzh_leapcnt.toNat := by
    rw [hlp, hr5len, hsl5]
    omega
  have len6 : body.std_indicators.length = h.tzh_ttisstdcnt.toNat := by
    rw [hstd, List.length_map, slice_length bytes (leapEnd h) (stdEnd h) f6a f6b]
    omega
  have len7 : body.ut_indicators.length = h.tzh_ttisutcnt.toNat := by
    rw [hut, List.length_map, slice_length bytes (stdEnd h) (utEnd h) f7a f7b]
    omega
  refine ⟨?_, ?_, ?_, ⟨hchar0, hdes, ?_⟩, ?_, ?_, ?_⟩
  · rw [len1]
    exact Int.toNat_of_nonneg ht0
  · rw [len2]
    exact Int.toNat_of_nonneg ht0
  · rw [len3]
    exact Int.toNat_of_nonneg hy0
  · omega
  · rw [len5]
    exact Int.toNat_of_nonneg hl0
  · rw [len6]
    exact Int.toNat_of_nonneg hs0
  · rw [len7]
    exact Int.toNat_of_nonneg hu0

/-- Witness for C9 at the round-trip scenario bytes and header. -/
theorem c9_witness :
    (c1body.tt_trans.length : Int) = c1header.tzh_timecnt ∧
    (c1body.ttinfo_indices.length : Int) = c1header.tzh_timecnt ∧
    (c1body.ttinfo_entries.length : Int) = c1header.tzh_typecnt ∧
    (0 ≤ c1header.tzh_charcnt ∧
      c1body.tz_designations =
        lossyUtf8 ((c1bodyBytes.drop (ttinfoEnd c1header)).take
          c1header.tzh_charcnt.toNat) ∧
      ttinfoEnd c1header + c1header.tzh_charcnt.toNat ≤ c1bodyBytes.length) ∧
    (c1body.leap_pairs.length : Int) = c1header.tzh_leapcnt ∧
    (c1body.std_indicators.length : Int) = c1header.tzh_ttisstdcnt ∧
    (c1body.ut_indicators.length : Int) = c1header.tzh_ttisutcnt :=
  c9_lengths c1bodyBytes c1header c1body (by decide)
    (by unfold headerInRange i32Range; decide) (by decide)

/-! Helper lemmas for the per-record decomposition of the local-time-type
section. -/

theorem take6_eq_getD (l : List Nat) (s : Nat) (hs : s + 6 ≤ l.length) :
    (l.drop s).take 6 =
      [l.getD s 0, l.getD (s + 1) 0, l.getD (s + 2) 0,
       l.getD (s + 3) 0, l.getD (s + 4) 0, l.getD (s + 5) 0] := by
  have h6 : 6 ≤ (l.drop s).length := by
    rw [List.length_drop]
    omega
  have hgd : ∀ i, l.getD (s + i) 0 = (l.drop s).getD i 0 := by
    intro i
    simp [List.getD_eq_getElem?_getD, List.getElem?_drop]
  rcases hd : l.drop s with _ | ⟨a, _ | ⟨b, _ | ⟨c, _ | ⟨d, _ | ⟨e, _ | ⟨f, t⟩⟩⟩⟩⟩⟩
  · rw [hd] at h6; simp at h6
  · rw [hd] at h6; simp at h6
  · rw [hd] at h6; simp at h6
  · rw [hd] at h6; simp at h6
  · rw [hd] at h6; simp at h6
  · rw [hd] at h6; simp at h6
  · have g0 : l.getD s 0 = a := by have hx := hgd 0; rw [hd] at hx; simpa using hx
    have g1 : l.getD (s + 1) 0 = b := by have hx := hgd 1; rw [hd] at hx; simpa using hx
    have g2 : l.getD (s + 2) 0 = c := by have hx := hgd 2; rw [hd] at hx; simpa using hx
    have g3 : l.getD (s + 3) 0 = d := by have hx := hgd 3; rw [hd] at hx; simpa using hx
    have g4 : l.getD (s + 4) 0 = e := by have hx := hgd 4; rw [hd] at hx; simpa using hx
    have g5 : l.getD (s + 5) 0 = f := by have hx := hgd 5; rw [hd] at hx; simpa using hx
    rw [g0, g1, g2, g3, g4, g5]
    rfl

theorem decodeTTInfos_get :
    ∀ (l : List Nat) (k : Nat), 6 * k + 6 ≤ l.length →
      (decodeTTInfos l).get? k = TTInfo.from_bytes ((l.drop (6 * k)).take 6)
  | [], k => fun hk => by simp at hk
  | [_], k => fun hk => by
      simp only [List.length_cons, List.length_nil] at hk
      omega
  | [_, _], k => fun hk => by
      simp only [List.length_cons, List.length_nil] at hk
      omega
  | [_, _, _], k => fun hk => by
      simp only [List.length_cons, List.length_nil] at hk
      omega
  | [_, _, _, _], k => fun hk => by
      simp only [List.length_cons, List.length_nil] at hk
      omega
  | [_, _, _, _, _], k => fun hk => by
      simp only [List.length_cons, List.length_nil] at hk
      omega
  | b0 :: b1 :: b2 :: b3 :: b4 :: b5 :: rest, 0 => fun _ => by
      show (decodeTTInfos (b0 :: b1 :: b2 :: b3 :: b4 :: b5 :: rest)).get? 0 =
        TTInfo.from_bytes [b0, b1, b2, b3, b4, b5]
      simp [decodeTTInfos, TTInfo.from_bytes, List.getD]
  | b0 :: b1 :: b2 :: b3 :: b4 :: b5 :: rest, k + 1 => fun hk => by
      have hk' : 6 * k + 6 ≤ rest.length := by
        simp only [List.length_cons] at hk
        omega
      have ih := decodeTTInfos_get rest k hk'
      have hdrop : (b0 :: b1 :: b2 :: b3 :: b4 :: b5 :: rest).drop (6 * (k + 1)) =
          rest.drop (6 * k) := by
        have e : 6 * (k + 1) = 6 * k + 6 := by ring
        rw [e]
        rfl
      rw [hdrop]
      simp only [decodeTTInfos, List.get?_cons_succ]
      exact ih

theorem from_bytes_take6 (l : List Nat) (s : Nat) (hs : s + 6 ≤ l.length) :
    TTInfo.from_bytes ((l.drop s).take 6) = some
      { tt_utoff := be32 (l.getD s 0) (l.getD (s + 1) 0) (l.getD (s + 2) 0)
          (l.getD (s + 3) 0)
        tt_isdst := l.getD (s + 4) 0 == 1
        tt_desigidx := l.getD (s + 5) 0 } := by
  rw [take6_eq_getD l s hs]
  simp [TTInfo.from_bytes, List.getD]

theorem slice_drop_take (l : List Nat) (s L n : Nat) (h6 : n + 6 ≤ L) :
    (((l.drop s).take L).drop n).take 6 = (l.drop (s + n)).take 6 := by
  apply List.ext_getElem?
  intro i
  by_cases hi : i < 6
  · rw [List.getElem?_take_of_lt hi, List.getElem?_drop,
      List.getElem?_take_of_lt (show n + i < L by omega), List.getElem?_drop,
      List.getElem?_take_of_lt hi, List.getElem?_drop]
    congr 1
    omega
  · push_neg at hi
    rw [List.getElem?_eq_none (le_trans (List.length_take_le _ _) hi),
      List.getElem?_eq_none (le_trans (List.length_take_le _ _) hi)]

/-- C6: on every successful body decode (buffer below 2^63 bytes, header
counts in i32 range), local-time-type record k is decoded by
`TTInfo::from_bytes` from exactly the 6 consecutive buffer bytes at offset
6k within the local-time-type section: bytes 0-3 as a big-endian signed
32-bit offset, byte 4 as the DST flag (1 is true, anything else false),
byte 5 as the designation index.  The 6-byte width is the wire-format
constant `ttinfo_size_unpadded`, independent of any host padding. -/
theorem c6_ttinfo_decode (bytes : List Nat) (h : TzFileHeader) (body : TzFileBody)
    (k : Nat) (hlen : bytes.length < 9223372036854775808)
    (hrange : headerInRange h)
    (hdec : TzFileBody.from_bytes_and_header bytes h = some body)
    (hk : k < h.tzh_typecnt.toNat) :
    body.ttinfo_entries.get? k =
      TTInfo.from_bytes ((bytes.drop (idxEnd h + 6 * k)).take 6) ∧
    TTInfo.from_bytes ((bytes.drop (idxEnd h + 6 * k)).take 6) = some
      { tt_utoff := be32 (bytes.getD (idxEnd h + 6 * k) 0)
          (bytes.getD (idxEnd h + 6 * k + 1) 0)
          (bytes.getD (idxEnd h + 6 * k + 2) 0)
          (bytes.getD (idxEnd h + 6 * k + 3) 0)
        tt_isdst := bytes.getD (idxEnd h + 6 * k + 4) 0 == 1
        tt_desigidx := bytes.getD (idxEnd h + 6 * k + 5) 0 } := by
  obtain ⟨hfit, hbe, hidx, hent, hdesig, hleap, hstd, hut⟩ :=
    bodyDecode_inv bytes h body hdec
  obtain ⟨f1, f2a, f2b, f3a, f3b, f4a, f4b, f5a, f5b, f6a, f6b, f7a, f7b⟩ := hfit
  obtain ⟨hcu, hcs, hcl, hct, hcy, hcc⟩ := hrange
  obtain ⟨hy0, e3⟩ := ttinfoEnd_step h bytes.length hlen hcy f2b f3a f3b
  have hsl : ((bytes.drop (idxEnd h)).take (ttinfoEnd h - idxEnd h)).length =
      ttinfoEnd h - idxEnd h := slice_length bytes _ _ f3a f3b
  have hbound : 6 * k + 6 ≤
      ((bytes.drop (idxEnd h)).take (ttinfoEnd h - idxEnd h)).length := by
    rw [hsl]
    omega
  have hget := decodeTTInfos_get _ k hbound
  have hslice :
      ((((bytes.drop (idxEnd h)).take (ttinfoEnd h - idxEnd h)).drop (6 * k)).take 6) =
        (bytes.drop (idxEnd h + 6 * k)).take 6 :=
    slice_drop_take bytes (idxEnd h) (ttinfoEnd h - idxEnd h) (6 * k) (by omega)
  constructor
  · rw [hent, hget, hslice]
  · exact from_bytes_take6 bytes (idxEnd h + 6 * k) (by omega)

/-- Witness for C6 at record 0 of the round-trip scenario. -/
theorem c6_witness :
    c1body.ttinfo_entries.get? 0 =
      TTInfo.from_bytes ((c1bodyBytes.drop (idxEnd c1header + 6 * 0)).take 6) ∧
    TTInfo.from_bytes ((c1bodyBytes.drop (idxEnd c1header + 6 * 0)).take 6) = some
      { tt_utoff := be32 (c1bodyBytes.getD (idxEnd c1header + 6 * 0) 0)
          (c1bodyBytes.getD (idxEnd c1header + 6 * 0 + 1) 0)
          (c1bodyBytes.getD (idxEnd c1header + 6 * 0 + 2) 0)
          (c1bodyBytes.getD (idxEnd c1header + 6 * 0 + 3) 0)
        tt_isdst := c1bodyBytes.getD (idxEnd c1header + 6 * 0 + 4) 0 == 1
        tt_desigidx := c1bodyBytes.getD (idxEnd c1header + 6 * 0 + 5) 0 } :=
  c6_ttinfo_decode c1bodyBytes c1header c1body 0 (by decide)
    (by unfold headerInRange i32Range; decide) (by decide) (by decide)
